import Mathlib

/-!
# mysql-backend: the query builder, the executor's result shape and the dispatcher

A shallow embedding of `src/index.js` (class `MySQLBackend`): `escape`, `get`,
`post`, `put`, the result classification of `handleQuery`, the status mapping of
`handleEndpoint` and `getErrorCode`.

JavaScript values are embedded as the inductive `JSVal`.  A property read on a plain
object (`readProp`) finds the own property, or what `Object.prototype` holds under
the key.  A JavaScript Number is an IEEE-754 binary64 value held exactly as sign,
integer significand and binary exponent, with `parseFloat` and
`Number.prototype.toString` written out over natural-number arithmetic.  The two
library calls the class makes on values, `mysql.escape(value, true)` and
`JSON.stringify(value)`, are taken as parameters: every theorem holds for every
driver.
-/

namespace MySQLBackend

/-! ## JavaScript numbers -/

/-- A JavaScript Number: `NaN`, `±Infinity`, or the finite value
`(-1)^neg * m * 2^e`.  Zero is any `fin _ 0 _`. -/
inductive JSNum where
  | nan
  | inf (neg : Bool)
  | fin (neg : Bool) (m : Nat) (e : Int)
deriving DecidableEq, Repr

/-- Quotient `n / d` rounded to the nearest integer, ties to even. -/
def roundHalfEven (n d : Nat) : Nat :=
  let q := n / d
  let r := n % d
  if 2 * r < d then q
  else if d < 2 * r then q + 1
  else if q % 2 = 0 then q else q + 1

/-- The rational `n / d` divided by `2^e`, rounded to the nearest integer, ties to even. -/
def scaleRound (n d : Nat) (e : Int) : Nat :=
  match e with
  | .ofNat k => roundHalfEven n (d * 2 ^ k)
  | .negSucc k => roundHalfEven (n * 2 ^ (k + 1)) d

/-- The position of the highest set bit of `n` (`0` for `n < 2`), by halving at most
`fuel` times. -/
def log2Fuel : Nat → Nat → Nat
  | 0, _ => 0
  | fuel + 1, n => if n < 2 then 0 else log2Fuel fuel (n / 2) + 1

/-- Floor of the binary logarithm: `2^(log2Floor n) ≤ n < 2^(log2Floor n + 1)` for `0 < n`. -/
def log2Floor (n : Nat) : Nat := log2Fuel n n

/-- Whether `2^l ≤ n / d`. -/
def geTwoPow (n d : Nat) (l : Int) : Bool :=
  match l with
  | .ofNat k => decide (d * 2 ^ k ≤ n)
  | .negSucc k => decide (d ≤ n * 2 ^ (k + 1))

/-- The binary exponent of the unit in the last place for the positive rational
`n / d`: `floor(log2(n / d)) - 52`, and `-1074` in the subnormal range. -/
def binaryExponent (n d : Nat) : Int :=
  let l : Int := (log2Floor n : Int) - (log2Floor d : Int)
  let fl : Int := if geTwoPow n d l then l else l - 1
  max (fl - 52) (-1074)

/-- The binary64 value nearest to the rational `n / d` (`0 < d`), round-to-nearest,
ties-to-even, with gradual underflow and overflow to infinity. -/
def toDouble (neg : Bool) (n d : Nat) : JSNum :=
  if n = 0 then .fin neg 0 (-1074)
  else
    let e : Int := binaryExponent n d
    let m := scaleRound n d e
    if m = 2 ^ 53 then
      (if e + 1 > 971 then .inf neg else .fin neg (2 ^ 52) (e + 1))
    else if e > 971 then .inf neg
    else .fin neg m e

/-- The value of a run of decimal digits. -/
def digitsToNat (cs : List Char) : Nat :=
  cs.foldl (fun acc c => 10 * acc + (c.toNat - 48)) 0

/-- The binary64 value nearest to `s * 10^p`. -/
def decimalToDouble (neg : Bool) (s : Nat) (p : Int) : JSNum :=
  match p with
  | .ofNat k => toDouble neg (s * 10 ^ k) 1
  | .negSucc k => toDouble neg s (10 ^ (k + 1))

/-- The characters `parseFloat` skips before the number (`StrWhiteSpaceChar`). -/
def isStrWhiteSpaceChar (c : Char) : Bool :=
  let n := c.toNat
  n = 9 || n = 10 || n = 11 || n = 12 || n = 13 || n = 32 || n = 0xA0 || n = 0x1680 ||
  (0x2000 ≤ n && n ≤ 0x200A) || n = 0x2028 || n = 0x2029 || n = 0x202F || n = 0x205F ||
  n = 0x3000 || n = 0xFEFF

/-- An ASCII decimal digit. -/
def isDecimalDigit (c : Char) : Bool := 48 ≤ c.toNat && c.toNat ≤ 57

/-- The exponent part at the head of `cs`, when there is one: `e` or `E`, an optional
sign and at least one digit.  Its value, or `0` when `cs` starts with no exponent part. -/
def exponentPart (cs : List Char) : Int :=
  match cs with
  | c :: r =>
    if c = 'e' || c = 'E' then
      match r with
      | '-' :: r1 =>
        let ds := r1.takeWhile isDecimalDigit
        if ds.isEmpty then 0 else - (digitsToNat ds : Int)
      | '+' :: r1 => (digitsToNat (r1.takeWhile isDecimalDigit) : Int)
      | _ => (digitsToNat (r.takeWhile isDecimalDigit) : Int)
    else 0
  | [] => 0

/-- The unsigned part of `parseFloat`: the longest prefix that is a
`StrUnsignedDecimalLiteral`, rounded to binary64; `NaN` when there is none. -/
def parseUnsigned (neg : Bool) (u : List Char) : JSNum :=
  if "Infinity".toList.isPrefixOf u then .inf neg
  else
    let ip := u.takeWhile isDecimalDigit
    let r1 := u.dropWhile isDecimalDigit
    let fp := match r1 with
      | '.' :: r => r.takeWhile isDecimalDigit
      | _ => []
    let r2 := match r1 with
      | '.' :: r => r.dropWhile isDecimalDigit
      | _ => r1
    if ip.isEmpty && fp.isEmpty then .nan
    else decimalToDouble neg (digitsToNat (ip ++ fp)) (exponentPart r2 - (fp.length : Int))

/-- The global `parseFloat` applied to a string (given as its characters). -/
def parseFloatChars (cs : List Char) : JSNum :=
  match cs.dropWhile isStrWhiteSpaceChar with
  | '-' :: u => parseUnsigned true u
  | '+' :: u => parseUnsigned false u
  | u => parseUnsigned false u

/-- The decimal digits of a natural number, most significant first. -/
def natDigits (n : Nat) : List Char := (Nat.toDigits 10 n)

/-- The least `t` in `1..400` with `d ≤ n * 10^t`: for `0 < n / d < 1` the number of
the first non-zero decimal place. -/
def firstPlace (n d : Nat) : Nat :=
  ((List.range 400).find? (fun t => decide (d ≤ n * 10 ^ (t + 1)))).getD 399 + 1

/-- The decimal exponent `n0` of the positive rational `n / d`:
`10^(n0-1) ≤ n / d < 10^n0`. -/
def decimalExponent (n d : Nat) : Int :=
  if d ≤ n then ((natDigits (n / d)).length : Int)
  else 1 - (firstPlace n d : Int)

/-- The integer part of `(n / d) / 10^p` and whether the remainder is below (`lt`),
at (`eq`) or above (`gt`) one half. -/
def scaledFloor (n d : Nat) (p : Int) : Nat × Ordering :=
  match p with
  | .ofNat k => (n / (d * 10 ^ k), compare (2 * (n % (d * 10 ^ k))) (d * 10 ^ k))
  | .negSucc k => ((n * 10 ^ (k + 1)) / d, compare (2 * ((n * 10 ^ (k + 1)) % d)) d)

/-- The digit string of length `k` for the double `x = vn / vd`, when one of the two
`k`-digit decimals next to `x` rounds to `x`: the pair `(s, n)` with value
`s * 10^(n-k)`, the closer one when both do, the even one on a tie. -/
def digitsOfLength (x : JSNum) (vn vd : Nat) (n0 : Int) (k : Nat) : Option (Nat × Int) :=
  let (lo, half) := scaledFloor vn vd (n0 - (k : Int))
  let hi : Nat × Int := if lo + 1 = 10 ^ k then (10 ^ (k - 1), n0 + 1) else (lo + 1, n0)
  let okLo := decide (decimalToDouble false lo (n0 - (k : Int)) = x)
  let okHi := decide (decimalToDouble false hi.1 (hi.2 - (k : Int)) = x)
  if okLo && okHi then
    (match half with
     | .lt => some (lo, n0)
     | .gt => some hi
     | .eq => if lo % 2 = 0 then some (lo, n0) else some hi)
  else if okLo then some (lo, n0)
  else if okHi then some hi
  else none

/-- The shortest digit string that reads back as the positive double `m * 2^e`:
`(s, k, n)` of `Number::toString`, the value being `s * 10^(n-k)` with
`10^(k-1) ≤ s < 10^k`. -/
def shortestDigits (m : Nat) (e : Int) : Nat × Nat × Int :=
  let x := match e with
    | .ofNat j => toDouble false (m * 2 ^ j) 1
    | .negSucc j => toDouble false m (2 ^ (j + 1))
  let vn := match e with
    | .ofNat j => m * 2 ^ j
    | .negSucc _ => m
  let vd := match e with
    | .ofNat _ => 1
    | .negSucc j => 2 ^ (j + 1)
  let n0 := decimalExponent vn vd
  match (List.range 17).findSome? (fun i =>
      (digitsOfLength x vn vd n0 (i + 1)).map (fun sn => (sn.1, i + 1, sn.2))) with
  | some r => r
  | none => ((scaledFloor vn vd (n0 - 17)).1, 17, n0)

/-- The text `Number::toString` lays out for digits `s` (there are `k` of them) and
decimal exponent `n`. -/
def layoutDigits (s k : Nat) (n : Int) : List Char :=
  let ds := natDigits s
  if (k : Int) ≤ n ∧ n ≤ 21 then ds ++ List.replicate (n - (k : Int)).toNat '0'
  else if 0 < n ∧ n ≤ 21 then ds.take n.toNat ++ '.' :: ds.drop n.toNat
  else if -6 < n ∧ n ≤ 0 then '0' :: '.' :: (List.replicate (-n).toNat '0' ++ ds)
  else
    let ex := (if 0 ≤ n - 1 then '+' else '-') :: natDigits (n - 1).natAbs
    if k = 1 then ds ++ 'e' :: ex
    else ds.take 1 ++ '.' :: (ds.drop 1 ++ 'e' :: ex)

/-- `Number.prototype.toString()` (radix 10), as characters. -/
def numToChars : JSNum → List Char
  | .nan => "NaN".toList
  | .inf false => "Infinity".toList
  | .inf true => "-Infinity".toList
  | .fin neg m e =>
    if m = 0 then ['0']
    else
      let r := shortestDigits m e
      (if neg then ['-'] else []) ++ layoutDigits r.1 r.2.1 r.2.2

/-- `Number.prototype.toString()` (radix 10). -/
def numToString (x : JSNum) : String := String.mk (numToChars x)

/-- The global `parseFloat` applied to a string. -/
def parseFloatStr (s : String) : JSNum := parseFloatChars s.toList

/-- The Number for a natural number (an array length). -/
def natToNum (n : Nat) : JSNum := toDouble false n 1

/-! ## JavaScript values -/

/-- A JavaScript value as the HTTP layer and the driver hand it to the class:
primitives, arrays and plain objects, and the built-in functions a property read
can reach on `Object.prototype`.  An object is the list of its own enumerable
properties in `Object.keys` order; `native name` is the built-in function called
`name`. -/
inductive JSVal where
  | undefined
  | null
  | bool (b : Bool)
  | num (n : JSNum)
  | str (s : String)
  | arr (xs : List JSVal)
  | obj (kvs : List (String × JSVal))
  | native (name : String)
deriving Repr

/-- A plain object: its own enumerable properties in `Object.keys` order. -/
abbrev JSObj := List (String × JSVal)

/-- What a JavaScript evaluation throws: a `TypeError` of the runtime, or the
string of a `throw "<msg>"` statement. -/
inductive JSErr where
  | typeError
  | thrown (msg : String)
deriving DecidableEq, Repr

/-- `Object.keys(o)`. -/
def keys (o : JSObj) : List String := o.map Prod.fst

/-- What a property read finds on `Object.prototype`: the constructor `Object`, the
built-in methods, the prototype object itself (which has no own enumerable
property) under `__proto__`, and `undefined` for every other key. -/
def objectPrototype (key : String) : JSVal :=
  if key = "constructor" then .native "Object"
  else if key = "__proto__" then .obj []
  else if ["hasOwnProperty", "isPrototypeOf", "propertyIsEnumerable", "toLocaleString",
      "toString", "valueOf", "__defineGetter__", "__defineSetter__", "__lookupGetter__",
      "__lookupSetter__"].contains key then .native key
  else .undefined

/-- The property read `o[key]` on a plain object: the own property when there is
one, what `Object.prototype` holds under the key otherwise. -/
def readProp (o : JSObj) (key : String) : JSVal :=
  match o.lookup key with
  | some v => v
  | none => objectPrototype key

/-- The source text `Function.prototype.toString` gives for a built-in function. -/
def nativeSource (name : String) : String :=
  "function " ++ name ++ "() \x7b [native code] \x7d"

/-- The `typeof` operator. -/
def typeof : JSVal → String
  | .undefined => "undefined"
  | .null => "object"
  | .bool _ => "boolean"
  | .num _ => "number"
  | .str _ => "string"
  | .arr _ => "object"
  | .obj _ => "object"
  | .native _ => "function"

/-- JavaScript truthiness (`ToBoolean`). -/
def truthy : JSVal → Bool
  | .undefined => false
  | .null => false
  | .bool b => b
  | .num .nan => false
  | .num (.inf _) => true
  | .num (.fin _ m _) => decide (m ≠ 0)
  | .str s => decide (s ≠ "")
  | .arr _ => true
  | .obj _ => true
  | .native _ => true

/-- The `||` operator. -/
def jsOr (a b : JSVal) : JSVal := if truthy a then a else b

/-- The abstract operation `ToString` (what `parseFloat`, template literals and
`Array.prototype.join` apply to a value).  A plain object gives `[object Object]`
unless it carries an own `toString` property, which (never callable in parsed
data) makes the conversion a `TypeError`; an array joins its elements with `,`,
`null` and `undefined` elements giving the empty string; a built-in function gives
its source text. -/
def toStringOp : JSVal → Except JSErr String
  | .undefined => .ok "undefined"
  | .null => .ok "null"
  | .bool b => .ok (if b then "true" else "false")
  | .num n => .ok (numToString n)
  | .str s => .ok s
  | .arr xs => (joinElems xs).map (fun ps => ",".intercalate ps)
  | .obj kvs => if (keys kvs).contains "toString" then .error .typeError else .ok "[object Object]"
  | .native name => .ok (nativeSource name)
where
  /-- The string of each element, as `join` takes it. -/
  joinElems : List JSVal → Except JSErr (List String)
  | [] => .ok []
  | .undefined :: xs => (joinElems xs).map (fun ps => "" :: ps)
  | .null :: xs => (joinElems xs).map (fun ps => "" :: ps)
  | x :: xs =>
    match toStringOp x with
    | .error e => .error e
    | .ok p => (joinElems xs).map (fun ps => p :: ps)

/-- The method call `value.toString()`: a `TypeError` on `undefined` and `null`,
`ToString` otherwise. -/
def toStringMethod : JSVal → Except JSErr String
  | .undefined => .error .typeError
  | .null => .error .typeError
  | v => toStringOp v

/-- The pieces of a character list between commas. -/
def splitComma : List Char → List (List Char)
  | [] => [[]]
  | c :: cs =>
    match splitComma cs with
    | [] => [[c]]
    | p :: ps => if c = ',' then [] :: p :: ps else (c :: p) :: ps

/-- The call `s.split(",")`. -/
def split (s : String) : List String := (splitComma s.toList).map String.mk

/-- The array index a property key denotes: a canonical decimal numeral (no sign,
no leading zero). -/
def arrayIndex (key : String) : Option Nat :=
  match key.toList with
  | [] => none
  | c :: cs =>
    if (c :: cs).all isDecimalDigit && (c != '0' || cs.isEmpty) then some (digitsToNat (c :: cs))
    else none

/-- The property read `v[key]` for the reads the executor and the dispatcher make
(`insertId`, `length`, `0`, `result`): the property read on an object, `length` and
the indexed elements of an array, `undefined` otherwise. -/
def getProp (v : JSVal) (key : String) : JSVal :=
  match v with
  | .obj kvs => readProp kvs key
  | .arr xs =>
    if key = "length" then .num (natToNum xs.length)
    else
      match arrayIndex key with
      | some i => xs.getD i .undefined
      | none => .undefined
  | _ => .undefined

/-- The array built by `xs.forEach(x => out.push(f(x)))` on an empty `out`, or the
first exception `f` throws. -/
def collect {α β ε : Type} (f : α → Except ε β) : List α → Except ε (List β)
  | [] => .ok []
  | a :: as =>
    match f a with
    | .error e => .error e
    | .ok b =>
      match collect f as with
      | .error e => .error e
      | .ok bs => .ok (b :: bs)

/-! ## The class `MySQLBackend` -/

/-- What `escape` returns: the parsed Number, or the string the driver's
`mysql.escape(value, true)` produced. -/
inductive Escaped where
  | number (n : JSNum)
  | literal (s : String)
deriving DecidableEq, Repr

/-- The text an `Escaped` value takes inside a template literal. -/
def Escaped.text : Escaped → String
  | .number n => numToString n
  | .literal s => s

/-- The method `escape(value)`:
`parseFloat(value, 10).toString() === value.toString() ? parseFloat(value, 10)
 : mysql.escape(value, true)`. -/
def escape (mysqlEscape : JSVal → String) (value : JSVal) : Except JSErr Escaped :=
  match toStringOp value with
  | .error e => .error e
  | .ok arg =>
    match toStringMethod value with
    | .error e => .error e
    | .ok own =>
      if numToString (parseFloatStr arg) = own then .ok (.number (parseFloatStr arg))
      else .ok (.literal (mysqlEscape value))

/-- The arguments of one call of `handleQuery(query, _args, eventKey, array, insertId)`. -/
structure QueryCall where
  query : String
  args : List JSVal
  eventKey : String
  array : Bool
  insertId : JSVal

/-- The `id` filter both `get` and `put` push first: `if (id) filters.push("id=" + escape(id))`. -/
def pushIdFilter (mysqlEscape : JSVal → String) (id : JSVal) (filters : List String) :
    Except JSErr (List String) :=
  if truthy id then
    match escape mysqlEscape id with
    | .error e => .error e
    | .ok v => .ok (filters ++ ["id=" ++ v.text])
  else .ok filters

/-- The inner loop `values.forEach(value => subfilter.push(key + " = " + escape(value)))`. -/
def subfilterOf (mysqlEscape : JSVal → String) (key : String) (values : List String) :
    Except JSErr (List String) :=
  collect
    (fun value =>
      match escape mysqlEscape (.str value) with
      | .error e => .error e
      | .ok v => .ok (key ++ " = " ++ v.text))
    values

/-- The trailing part of the `SELECT` and `UPDATE` templates:
`filters.length ? "WHERE " + filters.join(" AND ") : ""`. -/
def whereClause (filters : List String) : String :=
  if filters.length ≠ 0 then "WHERE " ++ " AND ".intercalate filters else ""

/-- The string one query key contributes in `get`: the callback of
`filterKeys.forEach`, `"(" + subfilter.join(" OR ") + ")"` over the comma-split value. -/
def getSubfilter (mysqlEscape : JSVal → String) (query : JSObj) (key : String) :
    Except JSErr String :=
  match toStringMethod (readProp query key) with
  | .error e => .error e
  | .ok s =>
    match subfilterOf mysqlEscape key (split s) with
    | .error e => .error e
    | .ok subfilter => .ok ("(" ++ " OR ".intercalate subfilter ++ ")")

/-- The method `get({ table, id, query })`, `cols` being `this.cache.table[table]`:
either the call of `handleQuery` it makes or what it throws. -/
def get (mysqlEscape : JSVal → String) (cols : List String) (table : String) (id : JSVal)
    (query : Option JSObj) : Except JSErr QueryCall :=
  match pushIdFilter mysqlEscape id [] with
  | .error e => .error e
  | .ok filters1 =>
    let filters2 : Except JSErr (List String) :=
      match query with
      | none => .ok filters1
      | some q =>
        if (keys q).length ≠ 0 then
          ((keys q).filter (fun key => cols.contains key)).foldlM
            (fun filters key =>
              match getSubfilter mysqlEscape q key with
              | .error e => .error e
              | .ok subfilter => .ok (filters ++ [subfilter]))
            filters1
        else .ok filters1
    match filters2 with
    | .error e => .error e
    | .ok filters =>
      .ok { query := "SELECT * FROM ?? " ++ whereClause filters
            args := [.str table]
            eventKey := "get-" ++ table
            array := decide (typeof id = "undefined")
            insertId := .undefined }

/-- The method `post({ table, body })`: the loop over the column list pushes onto
`keys` and `data` together. -/
def post (jsonStringify : JSVal → String) (cols : List String) (table : String)
    (body : JSObj) : QueryCall :=
  let acc : List String × List JSVal :=
    cols.foldl
      (fun acc key =>
        if typeof (readProp body key) ≠ "undefined" then
          (acc.1 ++ [key],
           acc.2 ++ [if typeof (readProp body key) = "object"
                     then .str (jsonStringify (readProp body key)) else readProp body key])
        else acc)
      ([], [])
  { query := "INSERT INTO ?? (??) VALUES (?)"
    args := [.str table, .arr (acc.1.map .str), .arr acc.2]
    eventKey := "post-" ++ table
    array := false
    insertId := readProp body "id" }

/-- The string one `where` key contributes in `put`: the callback of
`filterKeys.forEach`,
`subfilter.length > 1 ? "(" + subfilter.join(" OR ") + ")" : subfilter[0]`. -/
def putSubfilter (mysqlEscape : JSVal → String) (w : JSObj) (key : String) :
    Except JSErr String :=
  match toStringMethod (readProp w key) with
  | .error e => .error e
  | .ok s =>
    match subfilterOf mysqlEscape key (split s) with
    | .error e => .error e
    | .ok subfilter =>
      .ok (if subfilter.length > 1 then "(" ++ " OR ".intercalate subfilter ++ ")"
           else subfilter.headD "")

/-- The method `put({ table, id, where, body })`: the call of `handleQuery` it
makes, or what it throws. -/
def put (mysqlEscape : JSVal → String) (cols : List String) (table : String) (id : JSVal)
    (whereArg : Option JSObj) (body : JSObj) : Except JSErr QueryCall :=
  match pushIdFilter mysqlEscape id [] with
  | .error e => .error e
  | .ok filters1 =>
    let filters2 : Except JSErr (List String) :=
      match whereArg with
      | none => .ok filters1
      | some w =>
        if (keys w).length ≠ 0 then
          ((keys w).filter (fun key => cols.contains key)).foldlM
            (fun filters key =>
              match putSubfilter mysqlEscape w key with
              | .error e => .error e
              | .ok subfilter => .ok (filters ++ [subfilter]))
            filters1
        else .ok filters1
    match filters2 with
    | .error e => .error e
    | .ok filters =>
      if filters.length = 0 then .error (.thrown "Put request needs a where condition")
      else
        let data : Except JSErr (List String) :=
          cols.foldlM
            (fun data key =>
              if typeof (readProp body key) ≠ "undefined" then
                match escape mysqlEscape (readProp body key) with
                | .error e => .error e
                | .ok v => .ok (data ++ [key ++ " = " ++ v.text])
              else .ok data)
            []
        match data with
        | .error e => .error e
        | .ok data =>
          .ok { query := "UPDATE ?? SET " ++ ",".intercalate data ++ " " ++ whereClause filters
                args := [.str table, id]
                eventKey := "put-" ++ table
                array := false
                insertId := id }

/-- The `result` expression of `handleQuery` on a successful driver response:
`typeof response.insertId !== "undefined" ? { id: insertId || response.insertId }
 : !response.length ? {} : array ? response : response[0]`. -/
def handleQueryResult (response : JSVal) (array : Bool) (insertId : JSVal) : JSVal :=
  if typeof (getProp response "insertId") ≠ "undefined" then
    .obj [("id", jsOr insertId (getProp response "insertId"))]
  else if !truthy (getProp response "length") then .obj []
  else if array then response
  else getProp response "0"

/-- How the driver answers one statement: no connection, a query error carrying
`err.sqlMessage`, or a response. -/
inductive DriverOutcome where
  | connectionError (err : JSVal)
  | queryError (sqlMessage : JSVal)
  | response (response : JSVal)

/-- The promise `handleQuery` returns, settled: `ok` is the resolved `{ result }`,
`error` the rejected `{ error }`. -/
def handleQuery (call : QueryCall) (outcome : DriverOutcome) : Except JSVal JSVal :=
  match outcome with
  | .connectionError err => .error (.obj [("error", err)])
  | .queryError msg => .error (.obj [("error", msg)])
  | .response r => .ok (.obj [("result", handleQueryResult r call.array call.insertId)])

/-- The method `getErrorCode(method)`. -/
def getErrorCode (method : String) : Nat :=
  if method = "get" then 404
  else if method = "post" || method = "put" || method = "delete" then 500
  else 501

/-- The three methods the routes dispatch to `handleEndpoint`. -/
inductive Method where
  | get
  | post
  | put
deriving DecidableEq, Repr

/-- The string the route passes for a method. -/
def Method.name : Method → String
  | .get => "get"
  | .post => "post"
  | .put => "put"

/-- The request fields `handleEndpoint` reads: `req.params.id`, `req.body`,
`req.query`, `req.where`. -/
structure Request where
  id : JSVal
  body : JSObj
  query : Option JSObj
  whereArg : Option JSObj

/-- What is handed to `res.status(..).send(..)`. -/
structure Response where
  status : Nat
  body : JSVal

/-- The value a caught exception is when sent as the response body: the thrown
string itself, and for a `TypeError` an object without own properties. -/
def JSErr.toVal : JSErr → JSVal
  | .typeError => .obj []
  | .thrown msg => .str msg

/-- The awaited `this[method]({ table, id, body, query, where })`: the resolved
`data`, or the caught `err`. -/
def callMethod (mysqlEscape jsonStringify : JSVal → String) (driver : QueryCall → DriverOutcome)
    (method : Method) (cols : List String) (table : String) (req : Request) :
    Except JSVal JSVal :=
  match method with
  | .get =>
    match get mysqlEscape cols table req.id req.query with
    | .error e => .error e.toVal
    | .ok call => handleQuery call (driver call)
  | .post =>
    handleQuery (post jsonStringify cols table req.body)
      (driver (post jsonStringify cols table req.body))
  | .put =>
    match put mysqlEscape cols table req.id req.whereArg req.body with
    | .error e => .error e.toVal
    | .ok call => handleQuery call (driver call)

/-- The method `handleEndpoint(method, table, req, res)` once the table's column
list `cols` is cached:
`res.status(data.length ? 204 : 200).send(data.result)`, and in the `catch`
`res.status(this.getErrorCode(method)).send(err)`. -/
def handleEndpoint (mysqlEscape jsonStringify : JSVal → String)
    (driver : QueryCall → DriverOutcome) (method : Method) (cols : List String)
    (table : String) (req : Request) : Response :=
  match callMethod mysqlEscape jsonStringify driver method cols table req with
  | .ok data =>
    { status := if truthy (getProp data "length") then 204 else 200
      body := getProp data "result" }
  | .error err => { status := getErrorCode method.name, body := err }

/-! ## The library's side, for closed examples

`mysql.escape` and the placeholder scan of `mysql.format` belong to the driver
(package `sqlstring`) and `JSON.stringify` to the language, not to this
repository.  They are written out here so that examples can be evaluated; the
general theorems take the two functions as parameters. -/

/-- The text `sqlstring` puts for one character of a string literal. -/
def escapeChar (c : Char) : List Char :=
  if c.toNat = 0 then ['\\', '0']
  else if c.toNat = 8 then ['\\', 'b']
  else if c.toNat = 9 then ['\\', 't']
  else if c.toNat = 10 then ['\\', 'n']
  else if c.toNat = 13 then ['\\', 'r']
  else if c.toNat = 26 then ['\\', 'Z']
  else if c.toNat = 34 then ['\\', c]
  else if c.toNat = 39 then ['\\', c]
  else if c.toNat = 92 then ['\\', c]
  else [c]

/-- The quoted string literal `sqlstring` writes for a string. -/
def escapeString (s : String) : String :=
  String.mk (Char.ofNat 39 :: ((s.toList.map escapeChar).flatten ++ [Char.ofNat 39]))

/-- The call `mysql.escape(value, true)` as `sqlstring` implements it. -/
def sqlstringEscape : JSVal → String
  | .undefined => "NULL"
  | .null => "NULL"
  | .bool b => if b then "true" else "false"
  | .num n => numToString n
  | .str s => escapeString s
  | .arr xs => ", ".intercalate (arrayToList xs)
  | .obj _ => escapeString "[object Object]"
  | .native name => escapeString (nativeSource name)
where
  /-- The pieces `arrayToList` joins: a nested array in parentheses. -/
  arrayToList : List JSVal → List String
  | [] => []
  | .arr ys :: xs => ("(" ++ ", ".intercalate (arrayToList ys) ++ ")") :: arrayToList xs
  | x :: xs => sqlstringEscape x :: arrayToList xs

/-- The text `JSON.stringify` puts for one character of a string. -/
def jsonChar (c : Char) : List Char :=
  if c.toNat = 34 then ['\\', c]
  else if c.toNat = 92 then ['\\', c]
  else if c.toNat = 8 then ['\\', 'b']
  else if c.toNat = 9 then ['\\', 't']
  else if c.toNat = 10 then ['\\', 'n']
  else if c.toNat = 12 then ['\\', 'f']
  else if c.toNat = 13 then ['\\', 'r']
  else if c.toNat < 16 then ['\\', 'u', '0', '0', '0'] ++ Nat.toDigits 16 c.toNat
  else if c.toNat < 32 then ['\\', 'u', '0', '0'] ++ Nat.toDigits 16 c.toNat
  else [c]

/-- The quoted string `JSON.stringify` writes for a string. -/
def jsonString (s : String) : String :=
  String.mk (Char.ofNat 34 :: ((s.toList.map jsonChar).flatten ++ [Char.ofNat 34]))

/-- The text `JSON.stringify` writes for a value, `none` for the values it leaves
out (`undefined` and functions). -/
def jsonText : JSVal → Option String
  | .undefined => none
  | .null => some "null"
  | .bool b => some (if b then "true" else "false")
  | .num (.fin neg m e) => some (numToString (.fin neg m e))
  | .num _ => some "null"
  | .str s => some (jsonString s)
  | .arr xs => some ("[" ++ ",".intercalate (elems xs) ++ "]")
  | .obj kvs => some ("\x7b" ++ ",".intercalate (members kvs) ++ "\x7d")
  | .native _ => none
where
  /-- The elements of an array, a left-out value written `null`. -/
  elems : List JSVal → List String
  | [] => []
  | x :: xs => (jsonText x).getD "null" :: elems xs
  /-- The members of an object, those with a left-out value skipped. -/
  members : List (String × JSVal) → List String
  | [] => []
  | (k, v) :: kvs =>
    match jsonText v with
    | some t => (jsonString k ++ ":" ++ t) :: members kvs
    | none => members kvs

/-- The call `JSON.stringify(value)` on a value whose `typeof` is `"object"`, where
it always returns a string. -/
def ecmaStringify (v : JSVal) : String := (jsonText v).getD "null"

/-- The number of placeholders `mysql.format` finds in a statement: the maximal
runs of `?` of length one or two (a longer run is skipped). -/
def countPlaceholders (sql : String) : Nat :=
  go sql.toList 0 0
where
  /-- Scan with the length of the run of `?` in progress. -/
  go : List Char → Nat → Nat → Nat
  | [], run, acc => if run = 1 ∨ run = 2 then acc + 1 else acc
  | c :: cs, run, acc =>
    if c = '?' then go cs (run + 1) acc
    else go cs 0 (if run = 1 ∨ run = 2 then acc + 1 else acc)

/-! ## The claims' side

Definitions that follow the wording of the specification, to be compared with the
methods above. -/

/-- The route parameter `req.params.id`: a string, or absent. -/
def paramId : Option String → JSVal
  | none => .undefined
  | some s => .str s

/-- What the specification says `escape` gives for a string: the parsed Number when
printing it gives the string back, the driver's literal otherwise. -/
def escapeStr (mysqlEscape : JSVal → String) (s : String) : Escaped :=
  if numToString (parseFloatStr s) = s then .number (parseFloatStr s)
  else .literal (mysqlEscape (.str s))

/-- The equality `k = e(v)`. -/
def equalityTerm (mysqlEscape : JSVal → String) (k v : String) : String :=
  k ++ " = " ++ (escapeStr mysqlEscape v).text

/-- The parenthesised OR-group `(k = e(v1) OR k = e(v2) ...)` over the comma-split
parts of `value`. -/
def orGroup (mysqlEscape : JSVal → String) (k value : String) : String :=
  "(" ++ " OR ".intercalate ((split value).map (equalityTerm mysqlEscape k)) ++ ")"

/-- The keys of a mapping that are known columns, in key order. -/
def knownKeys (cols : List String) (o : JSObj) : List String :=
  (keys o).filter (fun k => decide (k ∈ cols))

/-- The id filter, present when the id is given (a non-empty string). -/
def idFilter (mysqlEscape : JSVal → String) : Option String → List String
  | none => []
  | some s => if s = "" then [] else ["id=" ++ (escapeStr mysqlEscape s).text]

/-- The OR-groups of `get`: one per query key that is a known column, in key order,
over the string form of the key's value. -/
def getGroups (mysqlEscape : JSVal → String) (cols : List String) (query : JSObj) :
    Except JSErr (List String) :=
  collect (fun k => (toStringMethod (readProp query k)).map (orGroup mysqlEscape k))
    (knownKeys cols query)

/-- The term of `put` for one `where` key: a bare equality for a single part, the
OR-group for several. -/
def putTerm (mysqlEscape : JSVal → String) (k value : String) : String :=
  match split value with
  | [v] => equalityTerm mysqlEscape k v
  | _ => orGroup mysqlEscape k value

/-- The `where` terms of `put`: one per `where` key that is a known column. -/
def putTerms (mysqlEscape : JSVal → String) (cols : List String) (w : JSObj) :
    Except JSErr (List String) :=
  collect (fun k => (toStringMethod (readProp w k)).map (putTerm mysqlEscape k))
    (knownKeys cols w)

/-- The known columns whose body value is defined, in column order. -/
def definedColumns (cols : List String) (body : JSObj) : List String :=
  cols.filter (fun c => decide (typeof (readProp body c) ≠ "undefined"))

/-- The assignments of `put`: `col = escape(body[col])` per defined column. -/
def assignments (mysqlEscape : JSVal → String) (cols : List String) (body : JSObj) :
    Except JSErr (List String) :=
  collect (fun c => (escape mysqlEscape (readProp body c)).map (fun v => c ++ " = " ++ v.text))
    (definedColumns cols body)

/-- The value `post` inserts for a column: the JSON encoding of an object-valued
field, the field itself otherwise. -/
def postDatum (jsonStringify : JSVal → String) (body : JSObj) (c : String) : JSVal :=
  if typeof (readProp body c) = "object" then .str (jsonStringify (readProp body c))
  else readProp body c

/-- The classification of the specification's executor: `{id}` when the driver
reports an assigned-row id or an explicit id override was supplied; otherwise `{}`
for an empty row set; otherwise the full response when `array`; otherwise the
first row. -/
def handleQueryResultSpec (response : JSVal) (array : Bool) (insertId : JSVal) : JSVal :=
  if typeof (getProp response "insertId") ≠ "undefined" ∨ typeof insertId ≠ "undefined" then
    .obj [("id", jsOr insertId (getProp response "insertId"))]
  else if !truthy (getProp response "length") then .obj []
  else if array then response
  else getProp response "0"

/-! ## General lemmas -/

/-- A loop that pushes `f a` for the elements passing `p` collects `f` over the
filtered list, stopping at the first exception. -/
theorem foldlM_push_filter {α β ε : Type} (f : α → Except ε β) (p : α → Bool)
    (g : List β → α → Except ε (List β))
    (hg : ∀ acc a, g acc a = if p a then (f a).map (fun b => acc ++ [b]) else .ok acc)
    (l : List α) (init : List β) :
    l.foldlM g init = (collect f (l.filter p)).map (fun bs => init ++ bs) := by
  induction l generalizing init with
  | nil => simp [collect, Except.map, pure, Except.pure]
  | cons a l ih =>
    rw [List.foldlM_cons, hg]
    by_cases hp : p a = true
    · simp only [hp, if_true, List.filter_cons_of_pos, collect]
      cases hf : f a with
      | error e => simp [Except.map, bind, Except.bind]
      | ok b =>
        simp only [Except.map, bind, Except.bind, ih]
        cases collect f (List.filter p l) <;> simp
    · rw [List.filter_cons_of_neg hp]
      simp only [hp, if_false, Bool.false_eq_true]
      simp only [bind, Except.bind, ih]

/-- A loop that pushes `f a` for every element collects `f` over the list. -/
theorem foldlM_push {α β ε : Type} (f : α → Except ε β)
    (g : List β → α → Except ε (List β))
    (hg : ∀ acc a, g acc a = (f a).map (fun b => acc ++ [b]))
    (l : List α) (init : List β) :
    l.foldlM g init = (collect f l).map (fun bs => init ++ bs) := by
  have h := foldlM_push_filter f (fun _ => true) g (by intro acc a; simp [hg]) l init
  simpa using h

/-- Collecting successes keeps the length. -/
theorem collect_ok_length {α β ε : Type} (f : α → Except ε β) :
    ∀ (l : List α) (bs : List β), collect f l = .ok bs → bs.length = l.length := by
  intro l
  induction l with
  | nil =>
    intro bs h
    simp only [collect] at h
    cases h
    rfl
  | cons a l ih =>
    intro bs h
    simp only [collect] at h
    cases hf : f a with
    | error e => simp [hf] at h
    | ok b =>
      simp only [hf] at h
      cases hl : collect f l with
      | error e => simp [hl] at h
      | ok cs =>
        simp only [hl] at h
        cases h
        simp [ih cs hl]

/-- Collecting a function that never throws is `map`. -/
theorem collect_ok_map {α β ε : Type} (f : α → Except ε β) (g : α → β)
    (h : ∀ a, f a = .ok (g a)) (l : List α) : collect f l = .ok (l.map g) := by
  induction l with
  | nil => simp [collect]
  | cons a l ih => simp [collect, h, ih]

/-- On a string `escape` never throws. -/
theorem escape_str (mysqlEscape : JSVal → String) (s : String) :
    escape mysqlEscape (.str s) = .ok (escapeStr mysqlEscape s) := by
  unfold escape escapeStr toStringOp toStringMethod toStringOp
  by_cases h : numToString (parseFloatStr s) = s <;> simp [h]

/-- The inner loop of a filter is the list of the equalities. -/
theorem subfilterOf_eq (mysqlEscape : JSVal → String) (key : String) (values : List String) :
    subfilterOf mysqlEscape key values = .ok (values.map (equalityTerm mysqlEscape key)) := by
  unfold subfilterOf
  apply collect_ok_map
  intro a
  simp [escape_str, equalityTerm]

/-- Splitting gives at least one part. -/
theorem split_ne_nil (s : String) : split s ≠ [] := by
  have h : ∀ cs : List Char, splitComma cs ≠ [] := by
    intro cs
    induction cs with
    | nil => simp [splitComma]
    | cons c cs ih =>
      unfold splitComma
      cases hc : splitComma cs with
      | nil => simp
      | cons p ps => by_cases hcomma : c = ',' <;> simp [hcomma]
  unfold split
  simpa using h s.toList

/-- A value is defined exactly when `typeof` does not say `undefined`. -/
theorem typeof_undefined_iff (v : JSVal) : typeof v = "undefined" ↔ v = .undefined := by
  cases v <;> simp [typeof]

/-- With no id given, no id filter is pushed. -/
theorem pushIdFilter_falsy (mysqlEscape : JSVal → String) (id : JSVal) (filters : List String)
    (h : truthy id = false) : pushIdFilter mysqlEscape id filters = .ok filters := by
  simp [pushIdFilter, h]

/-- The id filter of a route parameter. -/
theorem pushIdFilter_param (mysqlEscape : JSVal → String) (id : Option String) :
    pushIdFilter mysqlEscape (paramId id) [] = .ok (idFilter mysqlEscape id) := by
  cases id with
  | none => simp [pushIdFilter, paramId, truthy, idFilter]
  | some s =>
    by_cases hs : s = ""
    · simp [pushIdFilter, paramId, truthy, idFilter, hs]
    · simp [pushIdFilter, paramId, truthy, idFilter, hs, escape_str]

/-- The callback of `get` gives the OR-group of the key's value. -/
theorem getSubfilter_eq (mysqlEscape : JSVal → String) (q : JSObj) (key : String) :
    getSubfilter mysqlEscape q key =
      (toStringMethod (readProp q key)).map (orGroup mysqlEscape key) := by
  unfold getSubfilter
  cases h : toStringMethod (readProp q key) with
  | error e => simp [Except.map]
  | ok s => simp [Except.map, subfilterOf_eq, orGroup]

/-- The callback of `put` gives the bare equality or the OR-group. -/
theorem putSubfilter_eq (mysqlEscape : JSVal → String) (w : JSObj) (key : String) :
    putSubfilter mysqlEscape w key =
      (toStringMethod (readProp w key)).map (putTerm mysqlEscape key) := by
  unfold putSubfilter
  cases h : toStringMethod (readProp w key) with
  | error e => simp [Except.map]
  | ok s =>
    simp only [Except.map, subfilterOf_eq, putTerm, orGroup]
    cases hs : split s with
    | nil => exact absurd hs (split_ne_nil s)
    | cons v vs =>
      cases vs with
      | nil => simp
      | cons v2 vs2 => simp

/-- The filter loop of `get`, started with `filters1`, appends the groups. -/
theorem get_filter_loop (mysqlEscape : JSVal → String) (cols : List String) (q : JSObj)
    (filters1 : List String) :
    (if (keys q).length ≠ 0 then
        ((keys q).filter (fun key => cols.contains key)).foldlM
          (fun filters key =>
            match getSubfilter mysqlEscape q key with
            | .error e => .error e
            | .ok subfilter => .ok (filters ++ [subfilter]))
          filters1
      else .ok filters1) =
      (getGroups mysqlEscape cols q).map (fun groups => filters1 ++ groups) := by
  have hloop := foldlM_push (fun key => getSubfilter mysqlEscape q key)
    (fun filters key =>
      match getSubfilter mysqlEscape q key with
      | .error e => .error e
      | .ok subfilter => .ok (filters ++ [subfilter]))
    (by intro acc a; cases h : getSubfilter mysqlEscape q a <;> simp [h, Except.map])
    ((keys q).filter (fun key => cols.contains key)) filters1
  have hf : (fun key => getSubfilter mysqlEscape q key) =
      (fun k => (toStringMethod (readProp q k)).map (orGroup mysqlEscape k)) := by
    funext k
    exact getSubfilter_eq mysqlEscape q k
  have hp : (fun key => cols.contains key) = (fun k => decide (k ∈ cols)) := by
    funext k
    simp
  by_cases hk : (keys q).length ≠ 0
  · rw [if_pos hk, hloop, hf, hp]
    rfl
  · rw [if_neg hk]
    have hnil : keys q = [] := by
      simpa using hk
    simp [getGroups, knownKeys, hnil, collect, Except.map]

/-- The filter loop of `put`, started with `filters1`, appends the terms. -/
theorem put_filter_loop (mysqlEscape : JSVal → String) (cols : List String) (w : JSObj)
    (filters1 : List String) :
    (if (keys w).length ≠ 0 then
        ((keys w).filter (fun key => cols.contains key)).foldlM
          (fun filters key =>
            match putSubfilter mysqlEscape w key with
            | .error e => .error e
            | .ok subfilter => .ok (filters ++ [subfilter]))
          filters1
      else .ok filters1) =
      (putTerms mysqlEscape cols w).map (fun terms => filters1 ++ terms) := by
  have hloop := foldlM_push (fun key => putSubfilter mysqlEscape w key)
    (fun filters key =>
      match putSubfilter mysqlEscape w key with
      | .error e => .error e
      | .ok subfilter => .ok (filters ++ [subfilter]))
    (by intro acc a; cases h : putSubfilter mysqlEscape w a <;> simp [h, Except.map])
    ((keys w).filter (fun key => cols.contains key)) filters1
  have hf : (fun key => putSubfilter mysqlEscape w key) =
      (fun k => (toStringMethod (readProp w k)).map (putTerm mysqlEscape k)) := by
    funext k
    exact putSubfilter_eq mysqlEscape w k
  have hp : (fun key => cols.contains key) = (fun k => decide (k ∈ cols)) := by
    funext k
    simp
  by_cases hk : (keys w).length ≠ 0
  · rw [if_pos hk, hloop, hf, hp]
    rfl
  · rw [if_neg hk]
    have hnil : keys w = [] := by
      simpa using hk
    simp [putTerms, knownKeys, hnil, collect, Except.map]

/-- The assignment loop of `put` collects the assignments of the defined columns. -/
theorem put_data_loop (mysqlEscape : JSVal → String) (cols : List String) (body : JSObj) :
    cols.foldlM
        (fun data key =>
          if typeof (readProp body key) ≠ "undefined" then
            match escape mysqlEscape (readProp body key) with
            | .error e => .error e
            | .ok v => .ok (data ++ [key ++ " = " ++ v.text])
          else .ok data)
        [] =
      assignments mysqlEscape cols body := by
  have hloop := foldlM_push_filter
    (fun c => (escape mysqlEscape (readProp body c)).map (fun v => c ++ " = " ++ v.text))
    (fun c => decide (typeof (readProp body c) ≠ "undefined"))
    (fun data key =>
      if typeof (readProp body key) ≠ "undefined" then
        match escape mysqlEscape (readProp body key) with
        | .error e => .error e
        | .ok v => .ok (data ++ [key ++ " = " ++ v.text])
      else .ok data)
    (by
      intro acc a
      by_cases hd : typeof (readProp body a) ≠ "undefined"
      · cases he : escape mysqlEscape (readProp body a) <;> simp [hd, he, Except.map]
      · simp [hd])
    cols []
  rw [hloop]
  unfold assignments definedColumns
  cases collect
    (fun c => (escape mysqlEscape (readProp body c)).map (fun v => c ++ " = " ++ v.text))
    (cols.filter (fun c => decide (typeof (readProp body c) ≠ "undefined"))) <;> simp [Except.map]

/-- The statement `get` builds, for any id the filter of which is `idf`. -/
theorem get_eq (mysqlEscape : JSVal → String) (cols : List String) (table : String)
    (id : JSVal) (query : JSObj) (idf : List String)
    (hid : pushIdFilter mysqlEscape id [] = .ok idf) :
    get mysqlEscape cols table id (some query) =
      (getGroups mysqlEscape cols query).map (fun groups =>
        { query := "SELECT * FROM ?? " ++ whereClause (idf ++ groups)
          args := [.str table]
          eventKey := "get-" ++ table
          array := decide (typeof id = "undefined")
          insertId := .undefined }) := by
  unfold get
  simp only [hid]
  rw [get_filter_loop]
  cases getGroups mysqlEscape cols query <;> simp [Except.map]

/-- The statement `put` builds, for any id the filter of which is `idf`. -/
theorem put_eq (mysqlEscape : JSVal → String) (cols : List String) (table : String)
    (id : JSVal) (w body : JSObj) (idf : List String)
    (hid : pushIdFilter mysqlEscape id [] = .ok idf) :
    put mysqlEscape cols table id (some w) body =
      (putTerms mysqlEscape cols w).bind (fun terms =>
        if (idf ++ terms).length = 0 then
          .error (.thrown "Put request needs a where condition")
        else
          (assignments mysqlEscape cols body).map (fun data =>
            { query := "UPDATE ?? SET " ++ ",".intercalate data ++ " " ++
                whereClause (idf ++ terms)
              args := [.str table, id]
              eventKey := "put-" ++ table
              array := false
              insertId := id })) := by
  unfold put
  simp only [hid]
  rw [put_filter_loop, put_data_loop]
  cases putTerms mysqlEscape cols w with
  | error e => simp [Except.map, Except.bind]
  | ok terms =>
    simp only [Except.map, Except.bind]
    by_cases hl : (idf ++ terms).length = 0
    · simp [hl]
    · simp only [hl, if_false]
      cases assignments mysqlEscape cols body <;> simp

/-- A `put` without a `where` mapping behaves as with an empty one. -/
theorem put_none (mysqlEscape : JSVal → String) (cols : List String) (table : String)
    (id : JSVal) (body : JSObj) :
    put mysqlEscape cols table id none body = put mysqlEscape cols table id (some []) body := by
  unfold put
  simp [keys]

/-- The `WHERE` part for a non-empty filter list. -/
theorem whereClause_of_ne_nil (filters : List String) (h : filters ≠ []) :
    whereClause filters = "WHERE " ++ " AND ".intercalate filters := by
  unfold whereClause
  have hl : filters.length ≠ 0 := by
    simpa using h
  simp [hl]

/-- Joining a single string gives that string. -/
theorem intercalate_singleton (sep x : String) : sep.intercalate [x] = x := by
  simp [String.intercalate, String.intercalate.go]

/-- Collecting a function that succeeds on every element of the list is `map`. -/
theorem collect_ok_map_mem {α β ε : Type} (f : α → Except ε β) (g : α → β) (l : List α)
    (h : ∀ a ∈ l, f a = .ok (g a)) : collect f l = .ok (l.map g) := by
  induction l with
  | nil => simp [collect]
  | cons a l ih =>
    have ha : f a = .ok (g a) := h a (by simp)
    have hl : collect f l = .ok (l.map g) := ih (fun b hb => h b (by simp [hb]))
    simp [collect, ha, hl]

/-- The groups of `get` when every known key's value has a string form. -/
theorem getGroups_ok (mysqlEscape : JSVal → String) (cols : List String) (query : JSObj)
    (sv : String → String)
    (hq : ∀ k ∈ knownKeys cols query, toStringMethod (readProp query k) = .ok (sv k)) :
    getGroups mysqlEscape cols query =
      .ok ((knownKeys cols query).map (fun k => orGroup mysqlEscape k (sv k))) := by
  unfold getGroups
  apply collect_ok_map_mem
  intro k hk
  simp [hq k hk, Except.map]

/-- The terms of `put` when every known key's value has a string form. -/
theorem putTerms_ok (mysqlEscape : JSVal → String) (cols : List String) (w : JSObj)
    (sv : String → String)
    (hw : ∀ k ∈ knownKeys cols w, toStringMethod (readProp w k) = .ok (sv k)) :
    putTerms mysqlEscape cols w =
      .ok ((knownKeys cols w).map (fun k => putTerm mysqlEscape k (sv k))) := by
  unfold putTerms
  apply collect_ok_map_mem
  intro k hk
  simp [hw k hk, Except.map]

/-- The assignments of `put` when `escape` returns for every defined column. -/
theorem assignments_ok (mysqlEscape : JSVal → String) (cols : List String) (body : JSObj)
    (ev : String → Escaped)
    (hb : ∀ c ∈ definedColumns cols body, escape mysqlEscape (readProp body c) = .ok (ev c)) :
    assignments mysqlEscape cols body =
      .ok ((definedColumns cols body).map (fun c => c ++ " = " ++ (ev c).text)) := by
  unfold assignments
  apply collect_ok_map_mem
  intro c hc
  simp [hb c hc, Except.map]

/-- The loop of `post` pushes the defined columns and their values. -/
theorem post_loop (jsonStringify : JSVal → String) (body : JSObj) (cols : List String)
    (acc : List String × List JSVal) :
    cols.foldl
        (fun acc key =>
          if typeof (readProp body key) ≠ "undefined" then
            (acc.1 ++ [key],
             acc.2 ++ [if typeof (readProp body key) = "object"
                       then .str (jsonStringify (readProp body key)) else readProp body key])
          else acc)
        acc =
      (acc.1 ++ definedColumns cols body,
       acc.2 ++ (definedColumns cols body).map (postDatum jsonStringify body)) := by
  induction cols generalizing acc with
  | nil => simp [definedColumns]
  | cons c cols ih =>
    rw [List.foldl_cons, ih]
    by_cases hd : typeof (readProp body c) ≠ "undefined"
    · simp [definedColumns, hd, postDatum]
    · simp [definedColumns, hd]

/-- Claim C1. For every table, column list and body, `put` called with no filter
present (id absent or empty; `where` absent, empty, or holding only keys that are
not known columns) throws `"Put request needs a where condition"`; it makes no call
of `handleQuery`, and the dispatcher answers 500 with that message whatever the
driver would do. -/
theorem put_without_filter_throws (mysqlEscape jsonStringify : JSVal → String)
    (driver : QueryCall → DriverOutcome) (cols : List String) (table : String) (id : JSVal)
    (whereArg query : Option JSObj) (body : JSObj)
    (hid : truthy id = false)
    (hwhere : ∀ w, whereArg = some w → ∀ k ∈ keys w, k ∉ cols) :
    put mysqlEscape cols table id whereArg body =
        .error (.thrown "Put request needs a where condition") ∧
      handleEndpoint mysqlEscape jsonStringify driver .put cols table
          { id := id, body := body, query := query, whereArg := whereArg } =
        { status := 500, body := .str "Put request needs a where condition" } := by
  have hput : put mysqlEscape cols table id whereArg body =
      .error (.thrown "Put request needs a where condition") := by
    have hidf := pushIdFilter_falsy mysqlEscape id [] hid
    cases whereArg with
    | none =>
      rw [put_none, put_eq mysqlEscape cols table id [] body [] hidf]
      simp [putTerms, knownKeys, keys, collect, Except.bind]
    | some w =>
      rw [put_eq mysqlEscape cols table id w body [] hidf]
      have hk : knownKeys cols w = [] := by
        unfold knownKeys
        rw [List.filter_eq_nil_iff]
        intro k hkmem
        simpa using hwhere w rfl k hkmem
      simp [putTerms, hk, collect, Except.bind]
  refine ⟨hput, ?_⟩
  simp [handleEndpoint, callMethod, hput, JSErr.toVal, getErrorCode, Method.name]

/-- Witness of C1: an empty id and a `where` mapping with an unknown key only. -/
theorem put_without_filter_throws_witness :
    put sqlstringEscape ["name"] "t" (.str "") (some [("nope", .str "1")])
        [("name", .str "x")] =
      .error (.thrown "Put request needs a where condition") :=
  (put_without_filter_throws sqlstringEscape sqlstringEscape (fun _ => .response (.arr []))
    ["name"] "t" (.str "") (some [("nope", .str "1")]) none [("name", .str "x")]
    (by decide)
    (by
      intro w hw k hk
      cases hw
      simp [keys] at hk
      subst hk
      decide)).1

/-- Claim C6. For every table, column list and body, `post` passes the executor
`[table, keys, data]` where `keys` is the sub-sequence of the column list, in column
order, of the columns whose body value is defined, and `data` holds for each of
them the JSON encoding of an object-valued field and the field itself otherwise;
`data` is as long as `keys`, and a body key that is not a known column is in
neither list. -/
theorem post_args (jsonStringify : JSVal → String) (cols : List String) (table : String)
    (body : JSObj) :
    (post jsonStringify cols table body).query = "INSERT INTO ?? (??) VALUES (?)" ∧
      (post jsonStringify cols table body).args =
        [.str table,
         .arr ((definedColumns cols body).map .str),
         .arr ((definedColumns cols body).map
            (fun c =>
              if typeof (readProp body c) = "object" then .str (jsonStringify (readProp body c))
              else readProp body c))] ∧
      (∀ c, c ∈ definedColumns cols body ↔ c ∈ cols ∧ readProp body c ≠ .undefined) ∧
      (definedColumns cols body).Sublist cols ∧
      ((definedColumns cols body).map
            (fun c =>
              if typeof (readProp body c) = "object" then .str (jsonStringify (readProp body c))
              else readProp body c)).length =
        (definedColumns cols body).length ∧
      ∀ k ∈ keys body, k ∉ cols → k ∉ definedColumns cols body := by
  refine ⟨rfl, ?_, ?_, ?_, by simp, ?_⟩
  · unfold post
    simp only [post_loop]
    simp [postDatum]
  · intro c
    simp [definedColumns, typeof_undefined_iff]
  · exact List.filter_sublist cols
  · intro k _ hk hmem
    exact hk (List.mem_of_mem_filter hmem)

/-- Witness of C6: a body with a string, an array-valued field and a key that is no
column, on a table that also has a column the body does not hold and a column
named `constructor`, which the read `body["constructor"]` finds on
`Object.prototype`. -/
theorem post_args_witness :
    (post ecmaStringify ["name", "tags", "missing", "constructor"] "t"
        [("name", .str "x"), ("zzz", .num (natToNum 1)), ("tags", .arr [.str "a", .null])]).args =
      [.str "t",
       .arr [.str "name", .str "tags", .str "constructor"],
       .arr [.str "x", .str "[\"a\",null]", .native "Object"]] :=
  (post_args ecmaStringify ["name", "tags", "missing", "constructor"] "t"
    [("name", .str "x"), ("zzz", .num (natToNum 1)), ("tags", .arr [.str "a", .null])]).2.1.trans
    (by rfl)

/-- Claim C3. For every table, column list and query mapping, `get` called without an
id builds a `WHERE` clause that is the AND-join, over exactly the query keys that are
known columns (`knownKeys`, in key order), of one parenthesised OR-group per key
(`orGroup`) over the comma-split parts of the key's value, each part passed through
`escape`; unknown keys contribute nothing and with no key left there is no `WHERE`
clause.  `getGroups` throws only when a value has no string form; `sv k` names the
string form of the value of key `k`. -/
theorem get_without_id (mysqlEscape : JSVal → String) (cols : List String) (table : String)
    (id : JSVal) (query : JSObj) (hid : truthy id = false) :
    get mysqlEscape cols table id (some query) =
        (getGroups mysqlEscape cols query).map (fun groups =>
          { query := "SELECT * FROM ?? " ++
              (if groups = [] then "" else "WHERE " ++ " AND ".intercalate groups)
            args := [.str table]
            eventKey := "get-" ++ table
            array := decide (typeof id = "undefined")
            insertId := .undefined }) ∧
      (∀ sv : String → String,
        (∀ k ∈ knownKeys cols query, toStringMethod (readProp query k) = .ok (sv k)) →
        getGroups mysqlEscape cols query =
          .ok ((knownKeys cols query).map (fun k =>
            "(" ++ " OR ".intercalate
              ((split (sv k)).map (fun v => k ++ " = " ++ (escapeStr mysqlEscape v).text)) ++
            ")"))) ∧
      (knownKeys cols query = [] →
        get mysqlEscape cols table id (some query) =
          .ok { query := "SELECT * FROM ?? "
                args := [.str table]
                eventKey := "get-" ++ table
                array := decide (typeof id = "undefined")
                insertId := .undefined }) := by
  have hmain : get mysqlEscape cols table id (some query) =
      (getGroups mysqlEscape cols query).map (fun groups =>
        { query := "SELECT * FROM ?? " ++
            (if groups = [] then "" else "WHERE " ++ " AND ".intercalate groups)
          args := [.str table]
          eventKey := "get-" ++ table
          array := decide (typeof id = "undefined")
          insertId := .undefined }) := by
    rw [get_eq mysqlEscape cols table id query [] (pushIdFilter_falsy mysqlEscape id [] hid)]
    cases getGroups mysqlEscape cols query with
    | error e => rfl
    | ok groups =>
      simp only [Except.map, List.nil_append]
      by_cases hg : groups = []
      · simp [hg, whereClause]
      · rw [whereClause_of_ne_nil _ hg, if_neg hg]
  refine ⟨hmain, ?_, ?_⟩
  · intro sv hq
    exact getGroups_ok mysqlEscape cols query sv hq
  · intro hnil
    rw [hmain]
    simp [getGroups, hnil, collect, Except.map]

/-- Witness of C3: the query `{status: "1,2"}`, with an unknown key beside it, on a
table with column `status`. -/
theorem get_without_id_witness :
    get sqlstringEscape ["status"] "t" .undefined
        (some [("status", .str "1,2"), ("other", .str "3")]) =
      .ok { query := "SELECT * FROM ?? WHERE (status = 1 OR status = 2)"
            args := [.str "t"]
            eventKey := "get-t"
            array := true
            insertId := .undefined } :=
  (get_without_id sqlstringEscape ["status"] "t" .undefined
    [("status", .str "1,2"), ("other", .str "3")] (by decide)).1.trans (by rfl)

/-- Claim C7 as stated fails. With the id `5` and the query `{status: "1"}` on a table
with column `status`, the `WHERE` clause is not the id filter alone: the query
filter is applied as well. -/
theorem get_with_id_applies_query_filters :
    ∃ call, get sqlstringEscape ["status"] "t" (.str "5") (some [("status", .str "1")]) =
        .ok call ∧
      call.query = "SELECT * FROM ?? WHERE id=5 AND (status = 1)" ∧
      call.query ≠ "SELECT * FROM ?? WHERE id=5" :=
  ⟨{ query := "SELECT * FROM ?? WHERE id=5 AND (status = 1)"
     args := [.str "t"]
     eventKey := "get-t"
     array := false
     insertId := .undefined }, by rfl, by rfl, by decide⟩

/-- Claim C7, amended. For every `get` request in which an id is given (a non-empty
route parameter `s`), the `WHERE` clause is the AND-join of the id filter
`id=<escaped id>` followed by one OR-group per query key that is a known column;
it is the id filter alone when the query holds no known column. -/
theorem get_with_id (mysqlEscape : JSVal → String) (cols : List String) (table : String)
    (s : String) (query : JSObj) (hs : s ≠ "") :
    get mysqlEscape cols table (.str s) (some query) =
        (getGroups mysqlEscape cols query).map (fun groups =>
          { query := "SELECT * FROM ?? WHERE " ++ " AND ".intercalate
              (("id=" ++ (escapeStr mysqlEscape s).text) :: groups)
            args := [.str table]
            eventKey := "get-" ++ table
            array := false
            insertId := .undefined }) ∧
      (knownKeys cols query = [] →
        get mysqlEscape cols table (.str s) (some query) =
          .ok { query := "SELECT * FROM ?? WHERE id=" ++ (escapeStr mysqlEscape s).text
                args := [.str table]
                eventKey := "get-" ++ table
                array := false
                insertId := .undefined }) := by
  have hidf : pushIdFilter mysqlEscape (.str s) [] =
      .ok ["id=" ++ (escapeStr mysqlEscape s).text] := by
    have h := pushIdFilter_param mysqlEscape (some s)
    simpa [paramId, idFilter, hs] using h
  have hmain : get mysqlEscape cols table (.str s) (some query) =
      (getGroups mysqlEscape cols query).map (fun groups =>
        { query := "SELECT * FROM ?? WHERE " ++ " AND ".intercalate
            (("id=" ++ (escapeStr mysqlEscape s).text) :: groups)
          args := [.str table]
          eventKey := "get-" ++ table
          array := false
          insertId := .undefined }) := by
    rw [get_eq mysqlEscape cols table (.str s) query _ hidf]
    have harr : decide (typeof (JSVal.str s) = "undefined") = false := by
      simp [typeof]
    cases getGroups mysqlEscape cols query with
    | error e => rfl
    | ok groups =>
      simp only [Except.map, List.singleton_append]
      rw [whereClause_of_ne_nil _ (by simp), harr]
      rfl
  refine ⟨hmain, ?_⟩
  intro hnil
  rw [hmain]
  simp only [getGroups, hnil, collect, Except.map, intercalate_singleton]
  rw [← String.append_assoc]
  rfl

/-- Witness of amended C7: the id `5` with the query `{status: "1"}`. -/
theorem get_with_id_witness :
    get sqlstringEscape ["status"] "t" (.str "5") (some [("status", .str "1")]) =
      .ok { query := "SELECT * FROM ?? WHERE id=5 AND (status = 1)"
            args := [.str "t"]
            eventKey := "get-t"
            array := false
            insertId := .undefined } :=
  (get_with_id sqlstringEscape ["status"] "t" "5" [("status", .str "1")]
    (by decide)).1.trans (by rfl)

/-- The statement of `put` with a `where` mapping, for a request that passes
validation. -/
theorem put_statement_some (mysqlEscape : JSVal → String) (cols : List String) (table : String)
    (id : Option String) (w body : JSObj)
    (hvalid : (∃ s, id = some s ∧ s ≠ "") ∨ ∃ k ∈ keys w, k ∈ cols) :
    put mysqlEscape cols table (paramId id) (some w) body =
      (putTerms mysqlEscape cols w).bind (fun terms =>
        (assignments mysqlEscape cols body).map (fun data =>
          { query := "UPDATE ?? SET " ++ ",".intercalate data ++ " WHERE " ++
              " AND ".intercalate (idFilter mysqlEscape id ++ terms)
            args := [.str table, paramId id]
            eventKey := "put-" ++ table
            array := false
            insertId := paramId id })) := by
  rw [put_eq mysqlEscape cols table (paramId id) w body _ (pushIdFilter_param mysqlEscape id)]
  cases hterms : putTerms mysqlEscape cols w with
  | error e => rfl
  | ok terms =>
    have hne : idFilter mysqlEscape id ++ terms ≠ [] := by
      rcases hvalid with ⟨s, hs, hs2⟩ | ⟨k, hk, hkc⟩
      · subst hs
        simp [idFilter, hs2]
      · have hmem : k ∈ knownKeys cols w := by
          simp [knownKeys, hk, hkc]
        have hlen := collect_ok_length _ _ _ hterms
        intro hnil
        have h2 := (List.append_eq_nil.mp hnil).2
        rw [h2] at hlen
        have h3 : knownKeys cols w = [] := by
          simpa using hlen.symm
        rw [h3] at hmem
        simp at hmem
    have hlen : ¬ (idFilter mysqlEscape id ++ terms).length = 0 := by
      simpa using hne
    simp only [Except.bind, hlen, if_false]
    rw [whereClause_of_ne_nil _ hne]
    have hassoc : ∀ a b : String, a ++ " " ++ ("WHERE " ++ b) = a ++ " WHERE " ++ b := by
      intro a b
      rw [String.append_assoc, String.append_assoc]
      congr 1
    simp only [hassoc]

/-- The fuelled logarithm never overshoots. -/
theorem two_pow_log2Fuel_le (fuel : Nat) : ∀ n, 0 < n → 2 ^ log2Fuel fuel n ≤ n := by
  induction fuel with
  | zero => intro n hn; simpa [log2Fuel] using hn
  | succ f ih =>
    intro n hn
    unfold log2Fuel
    by_cases h2 : n < 2
    · simp only [h2, if_true, pow_zero]; omega
    · simp only [h2, if_false]
      have hhalf : 0 < n / 2 := by omega
      have := ih (n / 2) hhalf
      rw [pow_succ]
      omega

/-- Rounding a quotient that is at least one gives a positive integer. -/
theorem roundHalfEven_pos (n d : Nat) (hd : 0 < d) (h : d ≤ n) : 0 < roundHalfEven n d := by
  have hq : 0 < n / d := Nat.div_pos h hd
  unfold roundHalfEven
  simp only
  split_ifs <;> omega

/-- The significand of a positive integer is positive. -/
theorem scaleRound_pos (n : Nat) (hn : 0 < n) : 0 < scaleRound n 1 (binaryExponent n 1) := by
  have hl1 : log2Floor 1 = 0 := by decide
  have hlog := two_pow_log2Fuel_le n n hn
  have hle : binaryExponent n 1 ≤ (log2Floor n : Int) - 52 ∨ binaryExponent n 1 = -1074 := by
    unfold binaryExponent
    simp only [hl1]
    split_ifs <;> omega
  cases he : binaryExponent n 1 with
  | ofNat k =>
    unfold scaleRound
    simp only
    apply roundHalfEven_pos
    · positivity
    · rw [he] at hle
      have hcast : Int.ofNat k = (k : Int) := rfl
      rw [hcast] at hle
      have hk2 : k ≤ log2Floor n := by omega
      calc 1 * 2 ^ k = 2 ^ k := by ring
        _ ≤ 2 ^ log2Floor n := Nat.pow_le_pow_right (by norm_num) hk2
        _ ≤ n := hlog
  | negSucc k =>
    unfold scaleRound
    simp only
    apply roundHalfEven_pos
    · norm_num
    · have : 0 < n * 2 ^ (k + 1) := by positivity
      omega

/-- The `length` of an array is truthy exactly when the array is not empty. -/
theorem natToNum_truthy (n : Nat) : truthy (.num (natToNum n)) = decide (n ≠ 0) := by
  unfold natToNum toDouble
  by_cases hn : n = 0
  · simp [hn, truthy]
  · have hpos := scaleRound_pos n (Nat.pos_of_ne_zero hn)
    simp only [hn, if_false]
    split_ifs
    · simp [truthy, hn]
    · simp [truthy, hn]
    · simp [truthy, hn]
    · simp only [truthy, hn, ne_eq, not_false_eq_true, decide_True, decide_eq_true_eq]
      omega

/-- Claim C9. For every `put` request that passes validation (an id is given, or some
`where` key is a known column), the statement is `UPDATE ?? SET <assignments>
WHERE <filters>` with the table as the `??` parameter: the assignments
(`assignments`) are, in column order and joined by `,`, one
`col = escape(body[col])` per known column whose body value is defined, and the
filters are the AND-join of the id filter (when the id is given) followed by one
term per `where` key that is a known column (`putTerms`): a bare equality for a
single comma-split part, a parenthesised OR-group for several.  `sv k` names the
string form of `where[k]` and `ev c` what `escape` returns for `body[c]`. -/
theorem put_statement (mysqlEscape : JSVal → String) (cols : List String) (table : String)
    (id : Option String) (whereArg : Option JSObj) (body : JSObj)
    (hvalid : (∃ s, id = some s ∧ s ≠ "") ∨ ∃ k ∈ keys (whereArg.getD []), k ∈ cols) :
    put mysqlEscape cols table (paramId id) whereArg body =
        (putTerms mysqlEscape cols (whereArg.getD [])).bind (fun terms =>
          (assignments mysqlEscape cols body).map (fun data =>
            { query := "UPDATE ?? SET " ++ ",".intercalate data ++ " WHERE " ++
                " AND ".intercalate (idFilter mysqlEscape id ++ terms)
              args := [.str table, paramId id]
              eventKey := "put-" ++ table
              array := false
              insertId := paramId id })) ∧
      (∀ sv : String → String,
        (∀ k ∈ knownKeys cols (whereArg.getD []),
          toStringMethod (readProp (whereArg.getD []) k) = .ok (sv k)) →
        putTerms mysqlEscape cols (whereArg.getD []) =
          .ok ((knownKeys cols (whereArg.getD [])).map (fun k =>
            match split (sv k) with
            | [v] => k ++ " = " ++ (escapeStr mysqlEscape v).text
            | vs => "(" ++ " OR ".intercalate
                (vs.map (fun v => k ++ " = " ++ (escapeStr mysqlEscape v).text)) ++ ")"))) ∧
      (∀ ev : String → Escaped,
        (∀ c ∈ cols, readProp body c ≠ .undefined →
          escape mysqlEscape (readProp body c) = .ok (ev c)) →
        assignments mysqlEscape cols body =
          .ok ((cols.filter (fun c => decide (typeof (readProp body c) ≠ "undefined"))).map
            (fun c => c ++ " = " ++ (ev c).text))) := by
  refine ⟨?_, ?_, ?_⟩
  · cases whereArg with
    | none =>
      rw [put_none]
      exact put_statement_some mysqlEscape cols table id [] body hvalid
    | some w => exact put_statement_some mysqlEscape cols table id w body hvalid
  · intro sv hw
    rw [putTerms_ok mysqlEscape cols (whereArg.getD []) sv hw]
    congr 1
    apply List.map_congr_left
    intro k _
    unfold putTerm orGroup equalityTerm
    cases hsp : split (sv k) with
    | nil => rfl
    | cons v vs =>
      cases vs with
      | nil => rfl
      | cons v2 vs2 => rfl
  · intro ev hb
    have hb2 : ∀ c ∈ definedColumns cols body,
        escape mysqlEscape (readProp body c) = .ok (ev c) := by
      intro c hc
      have hc2 : c ∈ cols ∧ readProp body c ≠ .undefined := by
        simpa [definedColumns, typeof_undefined_iff] using hc
      exact hb c hc2.1 hc2.2
    rw [assignments_ok mysqlEscape cols body ev hb2]
    rfl

/-- Witness of C9: an id, a `where` mapping with a two-part and a one-part value, and a
body with a string, a number and an unknown key, on a table that also has a column
the body does not hold and a column named `constructor`, which the read
`body["constructor"]` finds on `Object.prototype`. -/
theorem put_statement_witness :
    put sqlstringEscape ["status", "missing", "name", "constructor"] "t" (.str "5")
        (some [("status", .str "1,2"), ("name", .str "a")])
        [("name", .str "b c"), ("status", .num (natToNum 3)), ("zzz", .str "q")] =
      .ok { query :=
              "UPDATE ?? SET status = 3,name = 'b c',constructor = 'function Object() \x7b [native code] \x7d' WHERE id=5 AND (status = 1 OR status = 2) AND name = 'a'"
            args := [.str "t", .str "5"]
            eventKey := "put-t"
            array := false
            insertId := .str "5" } :=
  (put_statement sqlstringEscape ["status", "missing", "name", "constructor"] "t" (some "5")
    (some [("status", .str "1,2"), ("name", .str "a")])
    [("name", .str "b c"), ("status", .num (natToNum 3)), ("zzz", .str "q")]
    (Or.inl ⟨"5", rfl, by decide⟩)).1.trans (by rfl)

/-- An array has no `insertId` property. -/
theorem getProp_arr_insertId (rows : List JSVal) :
    getProp (.arr rows) "insertId" = .undefined := by
  have h1 : ("insertId" = "length") = False := by decide
  have h2 : arrayIndex "insertId" = none := by decide
  simp [getProp, h1, h2]

/-- The element `0` of a non-empty array is its head. -/
theorem getProp_arr_zero (r : JSVal) (rows : List JSVal) :
    getProp (.arr (r :: rows)) "0" = r := by
  have h1 : ("0" = "length") = False := by decide
  have h2 : arrayIndex "0" = some 0 := by decide
  simp [getProp, h1, h2]

/-- The result of the executor on a row set. -/
theorem handleQueryResult_rows (rows : List JSVal) (array : Bool) (insertId : JSVal) :
    handleQueryResult (.arr rows) array insertId =
      match rows with
      | [] => .obj []
      | r :: _ => if array then .arr rows else r := by
  unfold handleQueryResult
  have hlen : getProp (.arr rows) "length" = .num (natToNum rows.length) := by
    simp [getProp]
  rw [getProp_arr_insertId, hlen, natToNum_truthy]
  cases rows with
  | nil => simp [typeof]
  | cons r rs =>
    simp only [typeof, ne_eq, not_true_eq_false, if_false, List.length_cons]
    simp [getProp_arr_zero]

/-- The flags `get` passes to the executor. -/
theorem get_flags (mysqlEscape : JSVal → String) (cols : List String) (table : String)
    (id : JSVal) (query : Option JSObj) (call : QueryCall)
    (h : get mysqlEscape cols table id query = .ok call) :
    call.array = decide (typeof id = "undefined") ∧ call.insertId = .undefined := by
  unfold get at h
  split at h
  · cases h
  · simp only at h
    split at h
    · cases h
    · cases h
      exact ⟨rfl, rfl⟩

/-- Claim C5 as stated fails. On a row set with one row, `isArrayResult` true and the
explicit id override `"5"`, the executor's result is the row set, not `{id: "5"}`:
an override alone does not make the result `{id}`. -/
theorem handleQueryResult_override_on_rows :
    handleQueryResult (.arr [.obj [("a", .str "x")]]) true (.str "5") =
        .arr [.obj [("a", .str "x")]] ∧
      handleQueryResultSpec (.arr [.obj [("a", .str "x")]]) true (.str "5") =
        .obj [("id", .str "5")] ∧
      handleQueryResult (.arr [.obj [("a", .str "x")]]) true (.str "5") ≠
        handleQueryResultSpec (.arr [.obj [("a", .str "x")]]) true (.str "5") := by
  have h1 : handleQueryResult (.arr [.obj [("a", .str "x")]]) true (.str "5") =
      .arr [.obj [("a", .str "x")]] := by
    rw [handleQueryResult_rows]
    rfl
  have h2 : handleQueryResultSpec (.arr [.obj [("a", .str "x")]]) true (.str "5") =
      .obj [("id", .str "5")] := by
    rfl
  refine ⟨h1, h2, ?_⟩
  rw [h1, h2]
  intro h
  cases h

/-- Claim C5, amended. For every successful driver response, `isArrayResult` flag and
id override, the executor's result is `{id}` exactly when the driver reports an
assigned-row id (`response.insertId` is defined), the id being the override when
one is supplied and truthy and the driver's id otherwise; when the driver reports
none the override plays no part: the result is `{}` for an empty row set, the full
row set when `isArrayResult` is true, and the first row otherwise. -/
theorem handleQueryResult_classification (array : Bool) (insertId : JSVal) :
    (∀ response : JSVal, getProp response "insertId" ≠ .undefined →
        handleQueryResult response array insertId =
          .obj [("id", if truthy insertId then insertId else getProp response "insertId")]) ∧
      (∀ response : JSVal, getProp response "insertId" = .undefined →
        handleQueryResult response array insertId =
          if truthy (getProp response "length") then
            (if array then response else getProp response "0")
          else .obj []) ∧
      (handleQueryResult (.arr []) array insertId = .obj []) ∧
      (∀ r rows, handleQueryResult (.arr (r :: rows)) true insertId = .arr (r :: rows)) ∧
      (∀ r rows, handleQueryResult (.arr (r :: rows)) false insertId = r) := by
  refine ⟨?_, ?_, ?_, ?_, ?_⟩
  · intro response h
    have ht : typeof (getProp response "insertId") ≠ "undefined" := by
      rw [ne_eq, typeof_undefined_iff]
      exact h
    simp [handleQueryResult, ht, jsOr]
  · intro response h
    have ht : typeof (getProp response "insertId") = "undefined" := by
      rw [typeof_undefined_iff]
      exact h
    unfold handleQueryResult
    simp only [ht, ne_eq, not_true_eq_false, if_false]
    cases truthy (getProp response "length") <;> simp
  · rw [handleQueryResult_rows]
  · intro r rows
    rw [handleQueryResult_rows]
    simp
  · intro r rows
    rw [handleQueryResult_rows]
    simp

/-- Claim C8 as stated fails. For a `get` without an id whose query succeeds with the
empty row set, the result is the empty object `{}`, which is not an array. -/
theorem get_empty_row_set_result :
    ∃ call, get sqlstringEscape ["a"] "t" .undefined (some []) = .ok call ∧
      handleQuery call (.response (.arr [])) = .ok (.obj [("result", .obj [])]) ∧
      ∀ rows : List JSVal, JSVal.obj [] ≠ .arr rows :=
  ⟨{ query := "SELECT * FROM ?? "
     args := [.str "t"]
     eventKey := "get-t"
     array := true
     insertId := .undefined }, by rfl, by rfl, by intro rows h; cases h⟩

/-- Claim C8, amended. For every `get` request whose query succeeds with the row set
`rows`: the result is `{}` when the row set is empty (with or without an id); for
a non-empty row set it is the full array of rows when no id is given and the first
row when an id is given. -/
theorem get_result_shape (mysqlEscape : JSVal → String) (cols : List String)
    (table : String) (id : JSVal) (query : Option JSObj) (call : QueryCall)
    (hget : get mysqlEscape cols table id query = .ok call) :
    handleQuery call (.response (.arr [])) = .ok (.obj [("result", .obj [])]) ∧
      (∀ r rows, id = .undefined →
        handleQuery call (.response (.arr (r :: rows))) =
          .ok (.obj [("result", .arr (r :: rows))])) ∧
      (∀ r rows, id ≠ .undefined →
        handleQuery call (.response (.arr (r :: rows))) = .ok (.obj [("result", r)])) := by
  obtain ⟨harr, hins⟩ := get_flags mysqlEscape cols table id query call hget
  refine ⟨?_, ?_, ?_⟩
  · simp [handleQuery, handleQueryResult_rows]
  · intro r rows hid
    have ht : call.array = true := by
      rw [harr, hid]
      decide
    simp [handleQuery, handleQueryResult_rows, ht]
  · intro r rows hid
    have ht : call.array = false := by
      rw [harr]
      have hne : typeof id ≠ "undefined" := by
        rw [ne_eq, typeof_undefined_iff]
        exact hid
      simp [hne]
    simp [handleQuery, handleQueryResult_rows, ht]

/-- Witness of amended C8: a `get` without id on a table with columns `id`, `name`. -/
theorem get_result_shape_witness :
    handleQuery
        { query := "SELECT * FROM ?? "
          args := [.str "t"]
          eventKey := "get-t"
          array := true
          insertId := .undefined }
        (.response (.arr [.obj [("name", .str "x")]])) =
      .ok (.obj [("result", .arr [.obj [("name", .str "x")]])]) :=
  (get_result_shape sqlstringEscape ["id", "name"] "t" .undefined (some [])
    { query := "SELECT * FROM ?? "
      args := [.str "t"]
      eventKey := "get-t"
      array := true
      insertId := .undefined }
    (by rfl)).2.1 (.obj [("name", .str "x")]) [] rfl

/-- On a string, `escape` returns a Number exactly when printing the parsed Number
gives the string back, and the driver's literal of the string otherwise. -/
theorem escape_str_cases (mysqlEscape : JSVal → String) (s : String) :
    (numToString (parseFloatStr s) = s →
        escape mysqlEscape (.str s) = .ok (.number (parseFloatStr s))) ∧
      (numToString (parseFloatStr s) ≠ s →
        escape mysqlEscape (.str s) = .ok (.literal (mysqlEscape (.str s)))) := by
  rw [escape_str]
  unfold escapeStr
  constructor
  · intro h
    simp [h]
  · intro h
    simp [h]

/-- Strings that do not print back are handed to the driver: a leading zero, an
exponent form, and text that is no number. -/
theorem escape_quotes_non_canonical :
    escape sqlstringEscape (.str "007") = .ok (.literal "'007'") ∧
      escape sqlstringEscape (.str "1e3") = .ok (.literal "'1e3'") ∧
      escape sqlstringEscape (.str "1.0") = .ok (.literal "'1.0'") ∧
      escape sqlstringEscape (.str "'; DROP TABLE x; --") =
        .ok (.literal "'\\'; DROP TABLE x; --'") ∧
      escape sqlstringEscape (.str "42") = .ok (.number (natToNum 42)) := by
  refine ⟨?_, ?_, ?_, ?_, ?_⟩ <;> rfl

/-- Claim C2 fails on the code. The strings `NaN`, `Infinity` and `-Infinity` print back
from `parseFloat`, so `escape` returns the Number and the text reaches the
statement unquoted. -/
theorem escape_NaN_Infinity_unquoted :
    escape sqlstringEscape (.str "NaN") = .ok (.number .nan) ∧
      escape sqlstringEscape (.str "Infinity") = .ok (.number (.inf false)) ∧
      escape sqlstringEscape (.str "-Infinity") = .ok (.number (.inf true)) ∧
      (Escaped.number .nan).text = "NaN" ∧
      (Escaped.number (.inf false)).text = "Infinity" ∧
      (get sqlstringEscape ["name"] "t" .undefined (some [("name", .str "NaN")])).map
          (fun call => call.query) =
        .ok "SELECT * FROM ?? WHERE (name = NaN)" := by
  refine ⟨?_, ?_, ?_, ?_, ?_, ?_⟩ <;> rfl

/-- Whatever a method resolves with is the wrapper `{ result }`. -/
theorem callMethod_ok_shape (mysqlEscape jsonStringify : JSVal → String)
    (driver : QueryCall → DriverOutcome) (method : Method) (cols : List String)
    (table : String) (req : Request) (data : JSVal)
    (h : callMethod mysqlEscape jsonStringify driver method cols table req = .ok data) :
    ∃ result, data = .obj [("result", result)] := by
  have hq : ∀ call outcome, handleQuery call outcome = .ok data →
      ∃ result, data = .obj [("result", result)] := by
    intro call outcome hcall
    unfold handleQuery at hcall
    cases outcome with
    | connectionError err => cases hcall
    | queryError msg => cases hcall
    | response r =>
      cases hcall
      exact ⟨_, rfl⟩
  unfold callMethod at h
  cases method with
  | get =>
    simp only at h
    split at h
    · cases h
    · exact hq _ _ h
  | post => exact hq _ _ h
  | put =>
    simp only at h
    split at h
    · cases h
    · exact hq _ _ h

/-- On every success the dispatcher answers 200 with the result as body: the
wrapper `{ result }` has no `length`. -/
theorem handleEndpoint_success_status (mysqlEscape jsonStringify : JSVal → String)
    (driver : QueryCall → DriverOutcome) (method : Method) (cols : List String)
    (table : String) (req : Request) (data : JSVal)
    (h : callMethod mysqlEscape jsonStringify driver method cols table req = .ok data) :
    ∃ result, data = .obj [("result", result)] ∧
      handleEndpoint mysqlEscape jsonStringify driver method cols table req =
        { status := 200, body := result } := by
  obtain ⟨result, hdata⟩ :=
    callMethod_ok_shape mysqlEscape jsonStringify driver method cols table req data h
  refine ⟨result, hdata, ?_⟩
  unfold handleEndpoint
  rw [h, hdata]
  have h1 : getProp (.obj [("result", result)]) "length" = .undefined := by
    rfl
  have h2 : getProp (.obj [("result", result)]) "result" = result := by
    rfl
  simp [h1, h2, truthy]

/-- Claim C4 fails on the code. A `get` that succeeds with a non-empty array of rows is
answered with status 200, not 204: `data.length` is read on the wrapper
`{ result }`, never on the array. -/
theorem handleEndpoint_nonempty_array_status :
    handleEndpoint sqlstringEscape (fun _ => "null")
        (fun _ => .response (.arr [.obj [("name", .str "x")]])) .get ["name"] "t"
        { id := .undefined, body := [], query := some [], whereArg := none } =
      { status := 200, body := .arr [.obj [("name", .str "x")]] } := by
  rfl

/-- Claim C10 fails on the code. `put` passes two parameters, `[table, id]`, with a
template that has the single placeholder `??`; when a body value holds a `?`
the template has a second placeholder inside the inlined literal, for the id to
fill.  `get` with such a value has two placeholders for its one parameter. -/
theorem put_parameters_exceed_placeholders :
    (∃ call, put sqlstringEscape ["name"] "t" (.str "5") none [("name", .str "x")] =
          .ok call ∧
        call.query = "UPDATE ?? SET name = 'x' WHERE id=5" ∧
        call.args = [.str "t", .str "5"] ∧
        countPlaceholders call.query = 1 ∧ call.args.length = 2) ∧
      (∃ call, put sqlstringEscape ["name"] "t" (.str "5") none [("name", .str "a?b")] =
          .ok call ∧
        call.query = "UPDATE ?? SET name = 'a?b' WHERE id=5" ∧
        call.args = [.str "t", .str "5"] ∧
        countPlaceholders call.query = 2) ∧
      (∃ call, get sqlstringEscape ["name"] "t" .undefined (some [("name", .str "a?b")]) =
          .ok call ∧
        call.query = "SELECT * FROM ?? WHERE (name = 'a?b')" ∧
        countPlaceholders call.query = 2 ∧ call.args.length = 1) := by
  refine ⟨⟨_, rfl, rfl, rfl, ?_, rfl⟩, ⟨_, rfl, rfl, rfl, ?_⟩, ⟨_, rfl, rfl, ?_, rfl⟩⟩ <;> decide

/-- `post` passes three parameters for the three placeholders of its template. -/
theorem post_parameters_match_placeholders (jsonStringify : JSVal → String)
    (cols : List String) (table : String) (body : JSObj) :
    countPlaceholders (post jsonStringify cols table body).query =
      (post jsonStringify cols table body).args.length := by
  have h : countPlaceholders "INSERT INTO ?? (??) VALUES (?)" = 3 := by decide
  simp [post, h]

end MySQLBackend
